import Mathlib

/-!
Verification of the AssetOpsBench planning workflow and scenario validator.

The definitions below shallowly embed `NewPlanningWorkflow` from
`src/src/agent_hive/workflows/track1_planning.py` (construction-time task
verification and the `generate_steps` plan parser), together with the
scenario-validation helpers exercised by `src/tests/test_scenario_validation.py`.
Strings are modelled as Lean `String` / `List Char`; Python list indexing
(including negative indices) is modelled by `pyGet`; Python exceptions are
modelled with `Except`.
-/

namespace AssetOps

/-- An agent of the roster attached to the input task: a name and a free-text
description (the other fields of the Python `Agent` class play no role in the
parsing logic under study). -/
structure Agent where
  name : String
  description : String
deriving Repr, DecidableEq

/-- A generated sub-task, as built by `generate_steps`: description,
expected-output text, the bound agents, and the context list of previously
generated sub-tasks it depends on. -/
inductive GenTask : Type where
  | mk (description : String) (expected_output : String)
      (agents : List Agent) (context : List GenTask) : GenTask

/-- Description field of a generated sub-task. -/
def GenTask.description : GenTask → String
  | .mk d _ _ _ => d

/-- Expected-output field of a generated sub-task. -/
def GenTask.expected_output : GenTask → String
  | .mk _ e _ _ => e

/-- Bound agents of a generated sub-task. -/
def GenTask.agents : GenTask → List Agent
  | .mk _ _ a _ => a

/-- Context (dependency) list of a generated sub-task. -/
def GenTask.context : GenTask → List GenTask
  | .mk _ _ _ c => c

/-- The Python exceptions `generate_steps` can raise: an `IndexError` from
list indexing (out-of-range dependency reference, or `task.agents[0]` on an
empty roster modelled separately as `emptyRoster`). -/
inductive PlanErr : Type where
  | indexOutOfRange (n : Nat)
  | emptyRoster
deriving Repr, DecidableEq

/-- Match a literal character sequence at the head of a list, returning the
remainder on success. -/
def dropLit : List Char → List Char → Option (List Char)
  | [], l => some l
  | _ :: _, [] => none
  | p :: ps, c :: cs => if p = c then dropLit ps cs else none

/-- Numeric value of a list of decimal digit characters, as Python `int`. -/
def digitsVal (ds : List Char) : Nat :=
  ds.foldl (fun acc c => acc * 10 + (c.toNat - 48)) 0

/-- Worker for `findSRefs`, structurally recursive on a fuel argument so that
it evaluates by reduction; every recursive call consumes at least one
character, so a fuel equal to the text length never runs out. -/
def findSRefsGo : Nat → List Char → List Nat
  | _, [] => []
  | 0, _ :: _ => []
  | fuel + 1, '#' :: 'S' :: rest =>
    if (rest.takeWhile Char.isDigit).isEmpty then findSRefsGo fuel ('S' :: rest)
    else digitsVal (rest.takeWhile Char.isDigit) ::
      findSRefsGo fuel (rest.dropWhile Char.isDigit)
  | fuel + 1, _ :: rest => findSRefsGo fuel rest

/-- Embedding of `re.findall(r"#S(\d+)", dependency)` (line 164 of
`track1_planning.py`): scan the text left to right; at each occurrence of
`#S` followed by at least one digit, record the maximal digit run as a
number and resume after it. -/
def findSRefs (l : List Char) : List Nat :=
  findSRefsGo l.length l

/-- Split a character list at newline characters, as the line structure seen
by Python's `.` (which does not match a newline) in `re.findall`. -/
def splitLines : List Char → List (List Char)
  | [] => [[]]
  | '\n' :: rest => [] :: splitLines rest
  | c :: rest =>
    match splitLines rest with
    | [] => [[c]]
    | l :: ls => (c :: l) :: ls

/-- Try to match the pattern `tag ++ digits⁺ ++ ": " ++ (.+)` at the head of
the line, returning the (non-empty) capture: the regex `#Task\d+: (.+)`
anchored at one position. -/
def matchTagAt (tag : List Char) (l : List Char) : Option (List Char) :=
  match dropLit tag l with
  | none => none
  | some rest =>
    if (rest.takeWhile Char.isDigit).isEmpty then none
    else
      match rest.dropWhile Char.isDigit with
      | ':' :: ' ' :: cap => if cap.isEmpty then none else some cap
      | _ => none

/-- First match of the tag pattern inside a line, scanning start positions
left to right as `re.findall` does. -/
def findTagLine (tag : List Char) : List Char → Option (List Char)
  | [] => none
  | c :: rest =>
    match matchTagAt tag (c :: rest) with
    | some cap => some cap
    | none => findTagLine tag rest

/-- Embedding of `re.findall(tag ++ r"\d+: (.+)", text)` over the whole model
reply (lines 122-130 of `track1_planning.py`): since `.` never matches a
newline and the tags contain none, matches are found line by line, at most
one per line (the capture `.+` is greedy to the end of the line). -/
def reFindall (tag : List Char) (text : String) : List String :=
  (splitLines text.data).filterMap (fun line => (findTagLine tag line).map String.mk)

/-- Python list indexing `l[i]` with an `Int` index: non-negative indices
from the front, negative indices from the back, `none` when out of range
(where Python raises `IndexError`). -/
def pyGet {α : Type} (l : List α) (i : Int) : Option α :=
  if 0 ≤ i then l.get? i.toNat
  else if 0 ≤ i + (l.length : Int) then l.get? (i + (l.length : Int)).toNat
  else none

/-- Embedding of `context = [planned_tasks[i - 1] for i in numbers]`
(line 166): resolve each parsed reference `n` to `planned_tasks[n - 1]`
under Python indexing, left to right, raising `IndexError` at the first
reference that is out of range. -/
def resolveRefs (built : List GenTask) : List Nat → Except PlanErr (List GenTask)
  | [] => .ok []
  | n :: ns =>
    match pyGet built ((n : Int) - 1) with
    | none => .error (.indexOutOfRange n)
    | some t =>
      match resolveRefs built ns with
      | .ok ctx => .ok (t :: ctx)
      | .error e => .error e

/-- Embedding of lines 155-161: pick the first roster agent whose name equals
the parsed agent name; otherwise fall back to `task.agents[0]`, which is
`none` (an `IndexError`) exactly when the roster is empty. -/
def selectAgent (roster : List Agent) (agent_name : String) : Option Agent :=
  match roster.find? (fun a => a.name == agent_name) with
  | some a => some a
  | none => roster.head?

/-- Embedding of the loop of `generate_steps` (lines 140-176): walk the index
`i` from `0` while `i < len(tasks)` (the first argument of the recursion is
the remaining suffix `tasks[i:]`, whose head is `tasks[i]`), break when
`i == len(agents)`, default a missing dependency to `"None"` and a missing
expected output to `""`, bind the selected agent, resolve the dependency
references against the tasks built so far, and append the new sub-task. -/
def buildLoop (roster : List Agent) (agents deps outs : List String) :
    List String → Nat → List GenTask → Except PlanErr (List GenTask)
  | [], _, acc => .ok acc
  | task_description :: rest, i, acc =>
    if i = agents.length then .ok acc
    else
      match agents.get? i with
      | none => .error (.indexOutOfRange i)
      | some agent_name =>
        let dependency := (deps.get? i).getD "None"
        let expected_output := (outs.get? i).getD ""
        match selectAgent roster agent_name with
        | none => .error .emptyRoster
        | some selected_agent =>
          match (if dependency = "None" then Except.ok []
                 else resolveRefs acc (findSRefs dependency.data)) with
          | .error e => .error e
          | .ok context =>
            buildLoop roster agents deps outs rest (i + 1)
              (acc ++ [GenTask.mk task_description expected_output
                [selected_agent] context])

/-- Embedding of `NewPlanningWorkflow.generate_steps` after the model call:
extract the four line-labelled sections from the raw reply and run the
plan-building loop over the task descriptions from index `0` with no task
built yet. -/
def generate_steps (roster : List Agent) (llm_response : String) :
    Except PlanErr (List GenTask) :=
  let tasks := reFindall "#Task".data llm_response
  let agents := reFindall "#Agent".data llm_response
  let dependencies := reFindall "#Dependency".data llm_response
  let outputs := reFindall "#ExpectedOutput".data llm_response
  buildLoop roster agents dependencies outputs tasks 0 []

/-- The input task handed to the workflow: a goal description and the roster
of agents allowed to perform it (`None` in Python is `none` here). -/
structure InputTask where
  description : String
  agents : Option (List Agent)

/-- Embedding of `NewPlanningWorkflow._verify_tasks` (lines 36-43): the tasks
list must have exactly one element, whose agent roster is neither `None` nor
empty; otherwise a `ValueError` (modelled as `Except.error` with the message
string) is raised. -/
def verify_tasks (tasks : List InputTask) : Except String Unit :=
  if h : tasks.length = 1 then
    match (tasks.get ⟨0, by omega⟩).agents with
    | none => .error "Task must have at least one agent"
    | some ags =>
      if ags.length < 1 then .error "Task must have at least one agent"
      else .ok ()
  else .error "Planning only supports one task"

/-- The constructed planning workflow: the fields set by `__init__` that the
claims are about. -/
structure NewPlanningWorkflow where
  tasks : List InputTask
  llm : String

/-- Embedding of `NewPlanningWorkflow.__init__` (lines 28-34): store the
fields, then run `_verify_tasks`; no model call is involved — the model is
consulted only inside `generate_steps`. -/
def NewPlanningWorkflow.create (tasks : List InputTask) (llm : String) :
    Except String NewPlanningWorkflow :=
  match verify_tasks tasks with
  | .error e => .error e
  | .ok _ => .ok { tasks := tasks, llm := llm }

/-- A JSON-like value, the shape of scenario-record fields. -/
inductive JVal : Type where
  | str (s : String)
  | int (n : Int)
  | bool (b : Bool)
  | null
  | arr (elems : List JVal)
  | obj (fields : List (String × JVal))

/-- Whether a JSON-like value is a string. -/
def JVal.isStr : JVal → Bool
  | .str _ => true
  | _ => false

/-- Whether a JSON-like value is a boolean. -/
def JVal.isBool : JVal → Bool
  | .bool _ => true
  | _ => false

/-- Whether a JSON-like value is `null`. -/
def JVal.isNull : JVal → Bool
  | .null => true
  | _ => false

/-- Whether a JSON-like value is a mapping. -/
def JVal.isObj : JVal → Bool
  | .obj _ => true
  | _ => false

/-- A scenario record: a mapping from field names to values. -/
def ScenarioRecord : Type := List (String × JVal)

/-- Look a field up in a scenario record. -/
def fieldOf (record : ScenarioRecord) (key : String) : Option JVal :=
  (record.find? (fun p => p.1 == key)).map Prod.snd

/-- Check of one optional field: absent is fine, present with the declared
shape is fine, a type mismatch yields one error string naming the field. -/
def optFieldErrs (record : ScenarioRecord) (key : String) (ok : JVal → Bool) :
    List String :=
  match fieldOf record key with
  | none => []
  | some v => if ok v then [] else ["Field " ++ key ++ " has an invalid type"]

/-- Modelled from the spec: `validate_scenario` of
`assetopsbench.core.validator` is absent from the sources (only its tests
are), so this follows spec section 4.2 — `id` must be present (an integer is
coerced to its string form, other values pass through); `text` must be
present as a string (empty or whitespace-only text is accepted); the optional
fields `type`, `category`, `deterministic`, `characteristic_form`,
`expected_result`, `data`, `source`, when present, must have the declared
shape, a mismatch producing one error string naming the field; unknown fields
are ignored. Returns the list of error strings, empty on success. -/
def validate_scenario (record : ScenarioRecord) : List String :=
  (match fieldOf record "id" with
   | none => ["Missing required field: id"]
   | some _ => []) ++
  (match fieldOf record "text" with
   | none => ["Missing required field: text"]
   | some v => if v.isStr then [] else ["Field text must be a string"]) ++
  optFieldErrs record "type" JVal.isStr ++
  optFieldErrs record "category" JVal.isStr ++
  optFieldErrs record "deterministic" JVal.isBool ++
  optFieldErrs record "characteristic_form" (fun v => v.isStr || v.isNull) ++
  optFieldErrs record "expected_result" JVal.isObj ++
  optFieldErrs record "data" JVal.isObj ++
  optFieldErrs record "source" JVal.isStr

/-- Whether the character list ends with the given literal suffix. -/
def endsWithLit (suffix s : List Char) : Bool :=
  (dropLit suffix.reverse s.reverse).isSome

/-- Modelled from the spec: `find_json_files` of
`assetopsbench.core.validator` is absent from the sources (only its tests
are), so this follows spec section 4.2 — enumerate the files of a directory
(modelled as its list of file names) whose name has a `.json` or `.jsonl`
extension. -/
def find_json_files (files : List String) : List String :=
  files.filter (fun f => endsWithLit ".json".data f.data ||
    endsWithLit ".jsonl".data f.data)

/-- Naive substring test on character lists, used to state that an error
message mentions a field name. -/
def containsSub (needle : List Char) : List Char → Bool
  | [] => needle.isEmpty
  | c :: rest => (dropLit needle (c :: rest)).isSome || containsSub needle rest

theorem pyGet_mem {α : Type} {l : List α} {i : Int} {a : α}
    (h : pyGet l i = some a) : a ∈ l := by
  unfold pyGet at h
  split at h
  · exact List.get?_mem h
  · split at h
    · exact List.get?_mem h
    · exact absurd h (by simp)

theorem pyGet_natCast {α : Type} (l : List α) (n : Nat) :
    pyGet l (n : Int) = l.get? n := by
  simp [pyGet]

theorem pyGet_sub_one {α : Type} (l : List α) (n : Nat) (hn : 1 ≤ n) :
    pyGet l ((n : Int) - 1) = l.get? (n - 1) := by
  have : ((n : Int) - 1) = ((n - 1 : Nat) : Int) := by omega
  rw [this, pyGet_natCast]

theorem pyGet_neg_one {α : Type} (l : List α) :
    pyGet l (-1) = l.getLast? := by
  cases l with
  | nil => simp [pyGet]
  | cons a l =>
    have h1 : ¬ (0 : Int) ≤ -1 := by omega
    have h2 : (0 : Int) ≤ -1 + ((a :: l).length : Int) := by
      simp
    have h3 : ((-1) + ((a :: l).length : Int)).toNat = (a :: l).length - 1 := by
      simp
    rw [pyGet, if_neg h1, if_pos h2, h3, List.get?_eq_getElem?,
      List.getLast?_eq_getElem?]

theorem resolveRefs_ok_mem {built ctx : List GenTask} {ns : List Nat}
    (h : resolveRefs built ns = .ok ctx) : ∀ c ∈ ctx, c ∈ built := by
  induction ns generalizing ctx with
  | nil =>
    simp only [resolveRefs] at h
    cases h
    simp
  | cons n ns ih =>
    simp only [resolveRefs] at h
    cases hg : pyGet built ((n : Int) - 1) with
    | none => rw [hg] at h; exact absurd h (by simp)
    | some t =>
      rw [hg] at h
      cases hr : resolveRefs built ns with
      | error e => rw [hr] at h; exact absurd h (by simp)
      | ok ctx' =>
        rw [hr] at h
        cases h
        intro c hc
        rcases List.mem_cons.mp hc with hc | hc
        · exact hc ▸ pyGet_mem hg
        · exact ih hr c hc

theorem resolveRefs_ok_length {built ctx : List GenTask} {ns : List Nat}
    (h : resolveRefs built ns = .ok ctx) : ctx.length = ns.length := by
  induction ns generalizing ctx with
  | nil => simp only [resolveRefs] at h; cases h; rfl
  | cons n ns ih =>
    simp only [resolveRefs] at h
    cases hg : pyGet built ((n : Int) - 1) with
    | none => rw [hg] at h; exact absurd h (by simp)
    | some t =>
      rw [hg] at h
      cases hr : resolveRefs built ns with
      | error e => rw [hr] at h; exact absurd h (by simp)
      | ok ctx' =>
        rw [hr] at h
        cases h
        simp [ih hr]

theorem resolveRefs_ok_get {built ctx : List GenTask} {ns : List Nat}
    (h : resolveRefs built ns = .ok ctx) :
    ∀ j (hj : j < ns.length) (hj' : j < ctx.length),
      pyGet built ((ns.get ⟨j, hj⟩ : Int) - 1) = some (ctx.get ⟨j, hj'⟩) := by
  induction ns generalizing ctx with
  | nil => intro j hj; exact absurd hj (by simp)
  | cons n ns ih =>
    simp only [resolveRefs] at h
    cases hg : pyGet built ((n : Int) - 1) with
    | none => rw [hg] at h; exact absurd h (by simp)
    | some t =>
      rw [hg] at h
      cases hr : resolveRefs built ns with
      | error e => rw [hr] at h; exact absurd h (by simp)
      | ok ctx' =>
        rw [hr] at h
        cases h
        intro j hj hj'
        cases j with
        | zero => simpa using hg
        | succ j =>
          exact ih hr j (by simpa using hj) (by simpa using hj')

theorem resolveRefs_ok_of_valid {built : List GenTask} {ns : List Nat}
    (h : ∀ k ∈ ns, (k = 0 ∧ 1 ≤ built.length) ∨ (1 ≤ k ∧ k ≤ built.length)) :
    ∃ ctx, resolveRefs built ns = .ok ctx := by
  induction ns with
  | nil => exact ⟨[], rfl⟩
  | cons n ns ih =>
    obtain ⟨ctx', hctx'⟩ := ih (fun k hk => h k (List.mem_cons_of_mem _ hk))
    rcases h n (List.mem_cons_self _ _) with ⟨h0, hlen⟩ | ⟨h1, hle⟩
    · subst h0
      have hne : built ≠ [] := by
        intro hnil
        rw [hnil] at hlen
        simp at hlen
      obtain ⟨t, ht⟩ := List.getLast?_isSome.mpr hne |> Option.isSome_iff_exists.mp
      refine ⟨t :: ctx', ?_⟩
      have : ((0 : Nat) : Int) - 1 = -1 := by omega
      simp only [resolveRefs, this, pyGet_neg_one, ht, hctx']
    · have hlt : n - 1 < built.length := by omega
      have hget : built.get? (n - 1) = some (built.get ⟨n - 1, hlt⟩) :=
        List.get?_eq_get hlt
      refine ⟨built.get ⟨n - 1, hlt⟩ :: ctx', ?_⟩
      simp only [resolveRefs, pyGet_sub_one built n h1, hget, hctx']

theorem resolveRefs_err_of_big {built : List GenTask} {ns : List Nat} {n : Nat}
    (hmem : n ∈ ns) (hbig : built.length < n) :
    ∃ m, resolveRefs built ns = .error (.indexOutOfRange m) := by
  induction ns with
  | nil => exact absurd hmem (by simp)
  | cons a ns ih =>
    rcases List.mem_cons.mp hmem with rfl | hmem'
    · have h1 : 1 ≤ n := by omega
      have hnone : built.get? (n - 1) = none :=
        List.get?_eq_none.mpr (by omega)
      refine ⟨n, ?_⟩
      simp only [resolveRefs, pyGet_sub_one built n h1, hnone]
    · cases hg : pyGet built ((a : Int) - 1) with
      | none => exact ⟨a, by simp only [resolveRefs, hg]⟩
      | some t =>
        obtain ⟨m, hm⟩ := ih hmem'
        exact ⟨m, by simp only [resolveRefs, hg, hm]⟩

theorem selectAgent_spec {roster : List Agent} (h : roster ≠ []) (name : String) :
    ∃ sel, selectAgent roster name = some sel ∧ sel ∈ roster ∧
      ((roster.find? (fun a => a.name == name) = some sel ∧ sel.name = name) ∨
       (roster.find? (fun a => a.name == name) = none ∧ roster.head? = some sel)) := by
  cases hf : roster.find? (fun a => a.name == name) with
  | some a =>
    refine ⟨a, ?_, List.mem_of_find?_eq_some hf, Or.inl ⟨rfl, ?_⟩⟩
    · simp [selectAgent, hf]
    · have := List.find?_some hf
      exact eq_of_beq this
  | none =>
    cases roster with
    | nil => exact absurd rfl h
    | cons a l =>
      refine ⟨a, ?_, List.mem_cons_self _ _, Or.inr ⟨rfl, rfl⟩⟩
      simp [selectAgent, hf]

/-- What one iteration of the `generate_steps` loop guarantees about the
sub-task it appends at step index `j`, given the list `built` of sub-tasks
already generated: the description and expected output come from the parallel
sections, the bound agent is the selected one, and the context is empty for a
`"None"` dependency and otherwise the resolution of the `#S` references
against `built`. -/
def stepSpec (roster : List Agent) (agents deps outs : List String)
    (built : List GenTask) (descr : String) (j : Nat) (g : GenTask) : Prop :=
  ∃ agent_name sel,
    agents.get? j = some agent_name ∧
    selectAgent roster agent_name = some sel ∧
    g.description = descr ∧
    g.expected_output = (outs.get? j).getD "" ∧
    g.agents = [sel] ∧
    (((deps.get? j).getD "None" = "None" ∧ g.context = []) ∨
     ((deps.get? j).getD "None" ≠ "None" ∧
      resolveRefs built (findSRefs (((deps.get? j).getD "None").data)) =
        .ok g.context))

theorem buildLoop_break {roster : List Agent} {agents deps outs : List String}
    {t : String} {ts : List String} {i : Nat} {acc : List GenTask}
    (hie : i = agents.length) :
    buildLoop roster agents deps outs (t :: ts) i acc = .ok acc := by
  simp [buildLoop, hie]

theorem buildLoop_agent_none {roster : List Agent} {agents deps outs : List String}
    {t : String} {ts : List String} {i : Nat} {acc : List GenTask}
    (hie : ¬ i = agents.length) (hA : agents.get? i = none) :
    buildLoop roster agents deps outs (t :: ts) i acc =
      .error (.indexOutOfRange i) := by
  simp only [buildLoop, if_neg hie, hA]

theorem buildLoop_sel_none {roster : List Agent} {agents deps outs : List String}
    {t : String} {ts : List String} {i : Nat} {acc : List GenTask}
    {agent_name : String}
    (hie : ¬ i = agents.length) (hA : agents.get? i = some agent_name)
    (hS : selectAgent roster agent_name = none) :
    buildLoop roster agents deps outs (t :: ts) i acc = .error .emptyRoster := by
  simp only [buildLoop, if_neg hie, hA, hS]

theorem buildLoop_ctx_err {roster : List Agent} {agents deps outs : List String}
    {t : String} {ts : List String} {i : Nat} {acc : List GenTask}
    {agent_name : String} {sel : Agent} {e : PlanErr}
    (hie : ¬ i = agents.length) (hA : agents.get? i = some agent_name)
    (hS : selectAgent roster agent_name = some sel)
    (hC : (if (deps.get? i).getD "None" = "None" then Except.ok []
           else resolveRefs acc (findSRefs (((deps.get? i).getD "None").data))) =
          .error e) :
    buildLoop roster agents deps outs (t :: ts) i acc = .error e := by
  simp only [buildLoop, if_neg hie, hA, hS, hC]

theorem buildLoop_step {roster : List Agent} {agents deps outs : List String}
    {t : String} {ts : List String} {i : Nat} {acc : List GenTask}
    {agent_name : String} {sel : Agent} {ctx : List GenTask}
    (hie : ¬ i = agents.length) (hA : agents.get? i = some agent_name)
    (hS : selectAgent roster agent_name = some sel)
    (hC : (if (deps.get? i).getD "None" = "None" then Except.ok []
           else resolveRefs acc (findSRefs (((deps.get? i).getD "None").data))) =
          .ok ctx) :
    buildLoop roster agents deps outs (t :: ts) i acc =
      buildLoop roster agents deps outs ts (i + 1)
        (acc ++ [GenTask.mk t ((outs.get? i).getD "") [sel] ctx]) := by
  simp only [buildLoop, if_neg hie, hA, hS, hC]

theorem buildLoop_ok_spec (roster : List Agent) (agents deps outs : List String) :
    ∀ (rem : List String) (i : Nat) (acc plan : List GenTask),
      buildLoop roster agents deps outs rem i acc = .ok plan →
      ∃ ext, plan = acc ++ ext ∧
        ∀ k (hk : k < ext.length),
          ∃ hR : k < rem.length,
            stepSpec roster agents deps outs (acc ++ ext.take k)
              (rem.get ⟨k, hR⟩) (i + k) (ext.get ⟨k, hk⟩) := by
  intro rem
  induction rem with
  | nil =>
    intro i acc plan h
    cases h
    exact ⟨[], by simp, fun k hk => absurd hk (by simp)⟩
  | cons t ts ih =>
    intro i acc plan h
    by_cases hie : i = agents.length
    · rw [buildLoop_break hie] at h
      cases h
      exact ⟨[], by simp, fun k hk => absurd hk (by simp)⟩
    · cases hA : agents.get? i with
      | none =>
        rw [buildLoop_agent_none hie hA] at h
        exact Except.noConfusion h
      | some agent_name =>
        cases hS : selectAgent roster agent_name with
        | none =>
          rw [buildLoop_sel_none hie hA hS] at h
          exact Except.noConfusion h
        | some sel =>
          cases hC : (if (deps.get? i).getD "None" = "None" then Except.ok []
              else resolveRefs acc
                (findSRefs (((deps.get? i).getD "None").data))) with
          | error e =>
            rw [buildLoop_ctx_err hie hA hS hC] at h
            exact Except.noConfusion h
          | ok ctx =>
            rw [buildLoop_step hie hA hS hC] at h
            obtain ⟨ext', hplan, hstep⟩ := ih (i + 1) _ plan h
            refine ⟨GenTask.mk t ((outs.get? i).getD "") [sel] ctx :: ext',
              by simpa using hplan, ?_⟩
            intro k hk
            cases k with
            | zero =>
              refine ⟨by simp, agent_name, sel, hA, hS, rfl, rfl, rfl, ?_⟩
              by_cases hdep : (deps.get? i).getD "None" = "None"
              · rw [if_pos hdep] at hC
                cases hC
                exact Or.inl ⟨hdep, rfl⟩
              · rw [if_neg hdep] at hC
                exact Or.inr ⟨hdep, by simpa using hC⟩
            | succ k' =>
              have hk' : k' < ext'.length := by simpa using hk
              obtain ⟨hR', hspec⟩ := hstep k' hk'
              refine ⟨by simpa using hR', ?_⟩
              show stepSpec roster agents deps outs
                (acc ++ (GenTask.mk t ((outs.get? i).getD "") [sel] ctx ::
                  ext'.take k'))
                (ts.get ⟨k', hR'⟩) (i + (k' + 1)) (ext'.get ⟨k', hk'⟩)
              have harith : i + (k' + 1) = (i + 1) + k' := by omega
              have hbuilt : acc ++ (GenTask.mk t ((outs.get? i).getD "")
                  [sel] ctx :: ext'.take k') =
                  (acc ++ [GenTask.mk t ((outs.get? i).getD "") [sel] ctx]) ++
                    ext'.take k' := by
                simp
              rw [harith, hbuilt]
              exact hspec

theorem generate_steps_ok_spec {roster : List Agent} {reply : String}
    {plan : List GenTask} (h : generate_steps roster reply = .ok plan) :
    ∀ p (hp : p < plan.length),
      ∃ hT : p < (reFindall "#Task".data reply).length,
        stepSpec roster (reFindall "#Agent".data reply)
          (reFindall "#Dependency".data reply)
          (reFindall "#ExpectedOutput".data reply) (plan.take p)
          ((reFindall "#Task".data reply).get ⟨p, hT⟩) p
          (plan.get ⟨p, hp⟩) := by
  intro p hp
  have h' : buildLoop roster (reFindall "#Agent".data reply)
      (reFindall "#Dependency".data reply)
      (reFindall "#ExpectedOutput".data reply)
      (reFindall "#Task".data reply) 0 [] = .ok plan := h
  obtain ⟨ext, hplan, hstep⟩ := buildLoop_ok_spec roster _ _ _ _ 0 [] plan h'
  have hext : plan = ext := by simpa using hplan
  subst hext
  obtain ⟨hR, hspec⟩ := hstep p hp
  exact ⟨hR, by simpa using hspec⟩

theorem buildLoop_ok_of_valid (roster : List Agent)
    (agents deps outs : List String) :
    ∀ (rem : List String) (i : Nat) (acc : List GenTask), roster ≠ [] →
      i ≤ agents.length →
      (∀ j, i ≤ j → j < i + rem.length → j < agents.length →
        ∀ k ∈ findSRefs (((deps.get? j).getD "None").data),
          (k = 0 ∧ 1 ≤ acc.length + (j - i)) ∨
          (1 ≤ k ∧ k ≤ acc.length + (j - i))) →
      ∃ plan, buildLoop roster agents deps outs rem i acc = .ok plan ∧
        plan.length = acc.length + (min (i + rem.length) agents.length - i) := by
  intro rem
  induction rem with
  | nil =>
    intro i acc hr hia hvalid
    refine ⟨acc, rfl, ?_⟩
    have hmin : min (i + ([] : List String).length) agents.length ≤
        i + ([] : List String).length := min_le_left _ _
    simp only [List.length_nil] at hmin ⊢
    omega
  | cons t ts ih =>
    intro i acc hr hia hvalid
    by_cases hie : i = agents.length
    · refine ⟨acc, buildLoop_break hie, ?_⟩
      have hmin : min (i + (t :: ts).length) agents.length ≤ agents.length :=
        min_le_right _ _
      omega
    · have hiA : i < agents.length := by omega
      have hA : agents.get? i = some (agents.get ⟨i, hiA⟩) :=
        List.get?_eq_get hiA
      obtain ⟨sel, hS, -, -⟩ := selectAgent_spec hr (agents.get ⟨i, hiA⟩)
      have hctx : ∃ ctx, (if (deps.get? i).getD "None" = "None" then
          Except.ok [] else resolveRefs acc
            (findSRefs (((deps.get? i).getD "None").data))) = .ok ctx := by
        by_cases hdep : (deps.get? i).getD "None" = "None"
        · exact ⟨[], by rw [if_pos hdep]⟩
        · have hv := hvalid i (le_refl i) (by simp) hiA
          obtain ⟨ctx, hctx⟩ := @resolveRefs_ok_of_valid acc
            (findSRefs (((deps.get? i).getD "None").data))
            (by intro k hk
                rcases hv k hk with ⟨h0, hl⟩ | ⟨h1, h2⟩
                · exact Or.inl ⟨h0, by omega⟩
                · exact Or.inr ⟨h1, by omega⟩)
          exact ⟨ctx, by rw [if_neg hdep, hctx]⟩
      obtain ⟨ctx, hC⟩ := hctx
      rw [buildLoop_step hie hA hS hC]
      have hvalid' : ∀ j, i + 1 ≤ j → j < (i + 1) + ts.length →
          j < agents.length →
          ∀ k ∈ findSRefs (((deps.get? j).getD "None").data),
            (k = 0 ∧ 1 ≤ (acc ++ [GenTask.mk t ((outs.get? i).getD "")
              [sel] ctx]).length + (j - (i + 1))) ∨
            (1 ≤ k ∧ k ≤ (acc ++ [GenTask.mk t ((outs.get? i).getD "")
              [sel] ctx]).length + (j - (i + 1))) := by
        intro j hj hjT hjA k hk
        have hjT' : j < i + (t :: ts).length := by
          simp only [List.length_cons]
          omega
        rcases hvalid j (by omega) hjT' hjA k hk with ⟨h0, hl⟩ | ⟨h1, h2⟩
        · exact Or.inl ⟨h0, by simp only [List.length_append,
            List.length_singleton]; omega⟩
        · exact Or.inr ⟨h1, by simp only [List.length_append,
            List.length_singleton]; omega⟩
      obtain ⟨plan, hplan, hlen⟩ := ih (i + 1) _ hr (by omega) hvalid'
      refine ⟨plan, hplan, ?_⟩
      have hilt : i < min ((i + 1) + ts.length) agents.length :=
        lt_min (by omega) hiA
      simp only [List.length_append, List.length_singleton] at hlen
      simp only [List.length_cons]
      rw [show i + (ts.length + 1) = (i + 1) + ts.length from by omega]
      omega

theorem generate_steps_ok_of_valid {roster : List Agent} {reply : String}
    (hr : roster ≠ [])
    (hvalid : ∀ j, j < (reFindall "#Task".data reply).length →
      ∀ k ∈ findSRefs ((((reFindall "#Dependency".data reply).get? j).getD
        "None").data),
        (k = 0 ∧ 1 ≤ j) ∨ (1 ≤ k ∧ k ≤ j)) :
    ∃ plan, generate_steps roster reply = .ok plan ∧
      plan.length = min (reFindall "#Task".data reply).length
        (reFindall "#Agent".data reply).length := by
  have hv : ∀ j, 0 ≤ j → j < 0 + (reFindall "#Task".data reply).length →
      j < (reFindall "#Agent".data reply).length →
      ∀ k ∈ findSRefs ((((reFindall "#Dependency".data reply).get? j).getD
        "None").data),
        (k = 0 ∧ 1 ≤ ([] : List GenTask).length + (j - 0)) ∨
        (1 ≤ k ∧ k ≤ ([] : List GenTask).length + (j - 0)) := by
    intro j h0 hlt hA k hk
    rcases hvalid j (by simpa using hlt) k hk with ⟨ha, hb⟩ | ⟨ha, hb⟩
    · exact Or.inl ⟨ha, by simpa using hb⟩
    · exact Or.inr ⟨ha, by simpa using hb⟩
  obtain ⟨plan, hp, hl⟩ := buildLoop_ok_of_valid roster
    (reFindall "#Agent".data reply) (reFindall "#Dependency".data reply)
    (reFindall "#ExpectedOutput".data reply) (reFindall "#Task".data reply)
    0 [] hr (Nat.zero_le _) hv
  exact ⟨plan, hp, by simpa using hl⟩
/-- Example roster agent used in concrete instances. -/
def agIoT : Agent := { name := "IoT", description := "data retrieval agent" }

/-- Second example roster agent. -/
def agFMSR : Agent := { name := "FMSR", description := "failure analysis agent" }

/-- Example two-agent roster. -/
def rosterEx : List Agent := [agIoT, agFMSR]

/-- Example one-agent roster. -/
def rosterCex : List Agent := [agIoT]

/-- A well-formed two-step model reply: step 2 depends on step 1 via `#S1`. -/
def replyEx : String :=
  "#Task1: Get sensor data\n#Agent1: IoT\n#Dependency1: None\n#ExpectedOutput1: sensor data\n#Task2: Analyze failures\n#Agent2: FMSR\n#Dependency2: #S1\n#ExpectedOutput2: failure analysis"

/-- The first sub-task generated from `replyEx`. -/
def g0Ex : GenTask := GenTask.mk "Get sensor data" "sensor data" [agIoT] []

/-- The second sub-task generated from `replyEx`: its context is the first. -/
def g1Ex : GenTask :=
  GenTask.mk "Analyze failures" "failure analysis" [agFMSR] [g0Ex]

/-- The plan generated from `replyEx`. -/
def planEx : List GenTask := [g0Ex, g1Ex]

/-- A reply whose four sections are matched (one entry each) but whose single
dependency reference `#S5` is out of range. -/
def replyCex : String :=
  "#Task1: Inspect the chiller\n#Agent1: IoT\n#Dependency1: #S5\n#ExpectedOutput1: report"

/-- A reply with three tasks but only one agent line, exercising silent
truncation. -/
def replyTrunc : String :=
  "#Task1: Collect readings\n#Agent1: IoT\n#Dependency1: None\n#Task2: Clean data\n#Task3: Summarize"

/-- Example input task with a non-empty roster. -/
def taskEx : InputTask :=
  { description := "Analyze chiller 6", agents := some rosterEx }

/-- C10: in `generate_steps`, a dependency token `#S0` does not raise when at
least one sub-task has already been built: through index `0 - 1 = -1` and
Python negative indexing it resolves to the most recently built prior
sub-task; only with no sub-task built yet does `#S0` raise an out-of-range
failure. -/
theorem c10_s_zero (built : List GenTask) :
    (∀ t, built.getLast? = some t →
      resolveRefs built (findSRefs "#S0".data) = .ok [t]) ∧
    (built = [] →
      resolveRefs built (findSRefs "#S0".data) =
        .error (PlanErr.indexOutOfRange 0)) := by
  constructor
  · intro t ht
    have hfind : findSRefs "#S0".data = [0] := rfl
    have hidx : ((0 : Nat) : Int) - 1 = -1 := by omega
    rw [hfind]
    simp only [resolveRefs, hidx, pyGet_neg_one, ht]
  · intro h
    subst h
    rfl

/-- Witness for C10 at a one-task history and at the empty history. -/
theorem c10_s_zero_witness :
    resolveRefs [g0Ex] (findSRefs "#S0".data) = .ok [g0Ex] ∧
    resolveRefs ([] : List GenTask) (findSRefs "#S0".data) =
      .error (PlanErr.indexOutOfRange 0) :=
  ⟨(c10_s_zero [g0Ex]).1 g0Ex rfl, (c10_s_zero []).2 rfl⟩

/-- C8: `validate_scenario` on a record with both an `id` string and a `text`
string returns no errors; on a record with an `id` but no `text` field it
returns a non-empty error list with a message mentioning `text`. -/
theorem c8_validate_required_fields :
    validate_scenario [("id", JVal.str "113"),
      ("text", JVal.str "If Evaporator Water side fouling occurs for Chiller 6, which sensor is most relevant for monitoring this specific failure?")] = [] ∧
    validate_scenario [("id", JVal.str "999")] ≠ [] ∧
    ∃ e ∈ validate_scenario [("id", JVal.str "999")],
      containsSub "text".data e.data = true := by
  refine ⟨rfl, by decide, by decide⟩

/-- C9: `find_json_files` on a directory with one `.json`, one `.jsonl`, one
`.txt` and one other non-data file returns exactly the two data files. -/
theorem c9_find_json_files :
    find_json_files ["test.json", "test.jsonl", "test.txt", "test.py"] =
      ["test.json", "test.jsonl"] := by decide

theorem mem_take_get {α : Type} {l : List α} {p : Nat} {c : α}
    (hc : c ∈ l.take p) :
    ∃ j, ∃ hj : j < l.length, j < p ∧ l.get ⟨j, hj⟩ = c := by
  obtain ⟨⟨j, hjt⟩, hget⟩ := List.mem_iff_get.mp hc
  have hjt' := hjt
  simp only [List.length_take] at hjt'
  have hjl : j < l.length := by omega
  have hjp : j < p := by omega
  refine ⟨j, hjl, hjp, ?_⟩
  have h1 : (l.take p)[j]? = l[j]? := List.getElem?_take_of_lt hjp
  rw [← List.get?_eq_getElem?, ← List.get?_eq_getElem?] at h1
  rw [List.get?_eq_get hjt, List.get?_eq_get hjl, hget] at h1
  exact (Option.some_injective _ h1).symm

/-- C1: in `generate_steps`, for a dependency text other than the literal
`"None"`, the `#S<n>` tokens are resolved in token order, each to
`planned_tasks[n - 1]` over the sub-tasks already built (so `#S1` on the
second generated step resolves to the first generated step), and any token
whose number exceeds the number of sub-tasks built so far makes the
resolution raise an out-of-range indexing failure. -/
theorem c1_dependency_resolution :
    (∀ (built ctx : List GenTask) (ns : List Nat),
        resolveRefs built ns = .ok ctx → ctx.length = ns.length) ∧
    (∀ (built ctx : List GenTask) (ns : List Nat) (j : Nat)
        (h : resolveRefs built ns = .ok ctx) (hj : j < ns.length)
        (hj' : j < ctx.length),
        pyGet built ((ns.get ⟨j, hj⟩ : Int) - 1) = some (ctx.get ⟨j, hj'⟩)) ∧
    (∀ (roster : List Agent) (reply : String) (plan : List GenTask)
        (h : generate_steps roster reply = .ok plan) (hp1 : 1 < plan.length)
        (hd : (reFindall "#Dependency".data reply).get? 1 = some "#S1"),
        (plan.get ⟨1, hp1⟩).context =
          [plan.get ⟨0, Nat.lt_of_succ_lt hp1⟩]) ∧
    (∀ (built : List GenTask) (ns : List Nat) (n : Nat),
        n ∈ ns → built.length < n →
        ∃ m, resolveRefs built ns = .error (PlanErr.indexOutOfRange m)) := by
  refine ⟨fun built ctx ns h => resolveRefs_ok_length h,
    fun built ctx ns j h hj hj' => resolveRefs_ok_get h j hj hj',
    ?_, fun built ns n hmem hbig => resolveRefs_err_of_big hmem hbig⟩
  intro roster reply plan h hp1 hd
  obtain ⟨hT, hspec⟩ := generate_steps_ok_spec h 1 hp1
  obtain ⟨name, sel, -, -, -, -, -, hctx⟩ := hspec
  rw [hd] at hctx
  rcases hctx with ⟨hnone, -⟩ | ⟨-, hres⟩
  · exact absurd hnone (by decide)
  · cases plan with
    | nil => exact absurd hp1 (by simp)
    | cons p0 rest =>
      have htake : (p0 :: rest).take 1 = [p0] := rfl
      rw [htake] at hres
      have hfind : findSRefs (((some "#S1").getD "None").data) = [1] := rfl
      rw [hfind] at hres
      have hone : resolveRefs [p0] [1] = .ok [p0] := by
        have hidx : ((1 : Nat) : Int) - 1 = 0 := by omega
        simp [resolveRefs, hidx, pyGet]
      rw [hone] at hres
      injection hres with h2
      exact h2.symm

/-- Witness for C1: the length equation, the token-order resolution, the
`#S1`-on-step-2 example plan, and the out-of-range failure for `#S5` with no
prior step, each at concrete inputs. -/
theorem c1_dependency_resolution_witness :
    ([g0Ex].length = ([1] : List Nat).length) ∧
    pyGet [g0Ex] ((1 : Int) - 1) = some g0Ex ∧
    (planEx.get ⟨1, by decide⟩).context = [planEx.get ⟨0, by decide⟩] ∧
    (∃ m, resolveRefs [] [5] = .error (PlanErr.indexOutOfRange m)) :=
  ⟨c1_dependency_resolution.1 [g0Ex] [g0Ex] [1] rfl,
   c1_dependency_resolution.2.1 [g0Ex] [g0Ex] [1] 0 rfl (by decide) (by decide),
   c1_dependency_resolution.2.2.1 rosterEx replyEx planEx rfl (by decide) rfl,
   c1_dependency_resolution.2.2.2 [] [5] 5 (by decide) (by decide)⟩

/-- C2: every sub-task's context in a returned plan consists only of
sub-tasks occurring strictly earlier in the same plan. -/
theorem c2_context_earlier (roster : List Agent) (reply : String)
    (plan : List GenTask) (h : generate_steps roster reply = .ok plan)
    (p : Nat) (hp : p < plan.length) (c : GenTask)
    (hc : c ∈ (plan.get ⟨p, hp⟩).context) :
    ∃ j, ∃ hj : j < plan.length, j < p ∧ plan.get ⟨j, hj⟩ = c := by
  obtain ⟨hT, hspec⟩ := generate_steps_ok_spec h p hp
  obtain ⟨name, sel, -, -, -, -, -, hctx⟩ := hspec
  rcases hctx with ⟨-, hempty⟩ | ⟨-, hres⟩
  · rw [hempty] at hc
    exact absurd hc (by simp)
  · exact mem_take_get (resolveRefs_ok_mem hres c hc)

/-- Witness for C2 at the second step of the example plan. -/
theorem c2_context_earlier_witness :
    ∃ j, ∃ hj : j < planEx.length, j < 1 ∧ planEx.get ⟨j, hj⟩ = g0Ex :=
  c2_context_earlier rosterEx replyEx planEx rfl 1 (by decide) g0Ex
    (List.mem_singleton.mpr rfl)

/-- C6: every generated sub-task's bound-agent list is a singleton holding
the roster agent whose name exactly matches the parsed agent name (the first
such agent), or the roster's first agent when no name matches; in either case
the bound agent is drawn from the roster. -/
theorem c6_agent_binding (roster : List Agent) (reply : String)
    (plan : List GenTask) (h : generate_steps roster reply = .ok plan)
    (p : Nat) (hp : p < plan.length) :
    ∃ agent_name sel,
      (reFindall "#Agent".data reply).get? p = some agent_name ∧
      (plan.get ⟨p, hp⟩).agents = [sel] ∧ sel ∈ roster ∧
      ((roster.find? (fun a => a.name == agent_name) = some sel ∧
         sel.name = agent_name) ∨
       (roster.find? (fun a => a.name == agent_name) = none ∧
         roster.head? = some sel)) := by
  obtain ⟨hT, hspec⟩ := generate_steps_ok_spec h p hp
  obtain ⟨name, sel, hA, hS, -, -, hag, -⟩ := hspec
  have hr : roster ≠ [] := by
    intro hnil
    subst hnil
    simp [selectAgent] at hS
  obtain ⟨sel', hS', hmem, hcases⟩ := selectAgent_spec hr name
  rw [hS] at hS'
  cases hS'
  exact ⟨name, sel, hA, hag, hmem, hcases⟩

/-- Witness for C6 at the second step of the example plan. -/
theorem c6_agent_binding_witness :
    ∃ agent_name sel,
      (reFindall "#Agent".data replyEx).get? 1 = some agent_name ∧
      (planEx.get ⟨1, by decide⟩).agents = [sel] ∧ sel ∈ rosterEx ∧
      ((rosterEx.find? (fun a => a.name == agent_name) = some sel ∧
         sel.name = agent_name) ∨
       (rosterEx.find? (fun a => a.name == agent_name) = none ∧
         rosterEx.head? = some sel)) :=
  c6_agent_binding rosterEx replyEx planEx rfl 1 (by decide)

/-- C7: a step whose dependency text is the literal `"None"` (including the
default taken when the dependency section is missing at that index) gets an
empty context list. -/
theorem c7_none_dependency (roster : List Agent) (reply : String)
    (plan : List GenTask) (h : generate_steps roster reply = .ok plan)
    (p : Nat) (hp : p < plan.length)
    (hdep : ((reFindall "#Dependency".data reply).get? p).getD "None" =
      "None") :
    (plan.get ⟨p, hp⟩).context = [] := by
  obtain ⟨hT, hspec⟩ := generate_steps_ok_spec h p hp
  obtain ⟨name, sel, -, -, -, -, -, hctx⟩ := hspec
  rcases hctx with ⟨-, hempty⟩ | ⟨hne, -⟩
  · exact hempty
  · exact absurd hdep hne

/-- Witness for C7 at the first step of the example plan, whose dependency
text is `"None"`. -/
theorem c7_none_dependency_witness :
    (planEx.get ⟨0, by decide⟩).context = [] :=
  c7_none_dependency rosterEx replyEx planEx rfl 0 (by decide) rfl

/-- C3 counterexample: a reply whose four sections are matched (one
well-formed line each) on which `generate_steps` nevertheless raises, because
the dependency reference `#S5` is out of range — so well-formed matched
sections alone do not prevent a failure. -/
theorem c3_matched_sections_can_raise :
    (reFindall "#Task".data replyCex).length = 1 ∧
    (reFindall "#Agent".data replyCex).length = 1 ∧
    (reFindall "#Dependency".data replyCex).length = 1 ∧
    (reFindall "#ExpectedOutput".data replyCex).length = 1 ∧
    rosterCex ≠ [] ∧
    generate_steps rosterCex replyCex =
      .error (PlanErr.indexOutOfRange 5) :=
  ⟨rfl, rfl, rfl, rfl, by decide, rfl⟩

/-- C3 (amended): with exactly one agent (or any non-empty roster),
`generate_steps` never raises for model output whose four sections are
matched and whose dependency references all resolve to already-built steps;
and for malformed or empty model output (no task line extracted) it returns
the empty plan rather than failing. -/
theorem c3_wellformed_no_raise (roster : List Agent) (reply : String)
    (hroster : roster ≠ [])
    (hmatched : (reFindall "#Task".data reply).length =
        (reFindall "#Agent".data reply).length ∧
      (reFindall "#Task".data reply).length =
        (reFindall "#Dependency".data reply).length ∧
      (reFindall "#Task".data reply).length =
        (reFindall "#ExpectedOutput".data reply).length)
    (hrefs : ∀ j, j < (reFindall "#Task".data reply).length →
      ∀ k ∈ findSRefs ((((reFindall "#Dependency".data reply).get? j).getD
        "None").data), (k = 0 ∧ 1 ≤ j) ∨ (1 ≤ k ∧ k ≤ j)) :
    (∃ plan, generate_steps roster reply = .ok plan) ∧
    (reFindall "#Task".data reply = [] →
      generate_steps roster reply = .ok []) := by
  constructor
  · obtain ⟨plan, hp, -⟩ := generate_steps_ok_of_valid hroster hrefs
    exact ⟨plan, hp⟩
  · intro hempty
    have hloop : buildLoop roster (reFindall "#Agent".data reply)
        (reFindall "#Dependency".data reply)
        (reFindall "#ExpectedOutput".data reply)
        (reFindall "#Task".data reply) 0 [] = .ok [] := by
      rw [hempty]
      rfl
    exact hloop

/-- Witness for the amended C3 on the well-formed two-step example reply. -/
theorem c3_wellformed_no_raise_witness :
    (∃ plan, generate_steps rosterEx replyEx = .ok plan) ∧
    (reFindall "#Task".data replyEx = [] →
      generate_steps rosterEx replyEx = .ok []) :=
  c3_wellformed_no_raise rosterEx replyEx (by decide) ⟨rfl, rfl, rfl⟩
    (by decide)

/-- C4: the loop walks indices from `0` and stops at the first index with no
corresponding agent entry, so with in-range dependency references the plan is
returned (no failure) with exactly `min(len(tasks), len(agents))` steps; in
particular a short agents section silently drops the remaining tasks. -/
theorem c4_truncation (roster : List Agent) (reply : String)
    (hroster : roster ≠ [])
    (hrefs : ∀ j, j < (reFindall "#Task".data reply).length →
      ∀ k ∈ findSRefs ((((reFindall "#Dependency".data reply).get? j).getD
        "None").data), (k = 0 ∧ 1 ≤ j) ∨ (1 ≤ k ∧ k ≤ j)) :
    ∃ plan, generate_steps roster reply = .ok plan ∧
      plan.length = min (reFindall "#Task".data reply).length
        (reFindall "#Agent".data reply).length ∧
      ((reFindall "#Agent".data reply).length <
          (reFindall "#Task".data reply).length →
        plan.length = (reFindall "#Agent".data reply).length) := by
  obtain ⟨plan, hp, hl⟩ := generate_steps_ok_of_valid hroster hrefs
  refine ⟨plan, hp, hl, fun hlt => ?_⟩
  rw [hl]
  omega

/-- Witness for C4 on a reply with three task lines but just one agent line:
the plan is returned without error and truncated to one step. -/
theorem c4_truncation_witness :
    ∃ plan, generate_steps rosterCex replyTrunc = .ok plan ∧
      plan.length = min (reFindall "#Task".data replyTrunc).length
        (reFindall "#Agent".data replyTrunc).length ∧
      ((reFindall "#Agent".data replyTrunc).length <
          (reFindall "#Task".data replyTrunc).length →
        plan.length = (reFindall "#Agent".data replyTrunc).length) :=
  c4_truncation rosterCex replyTrunc (by decide) (by decide)

/-- C5: constructing the planning workflow raises a configuration error (a
`ValueError`, before any model call — the embedded constructor involves no
model text at all) when the tasks list does not have exactly one element or
its single task has a `None` or empty roster, and succeeds with exactly one
task holding at least one agent. -/
theorem c5_constructor_validation (tasks : List InputTask) (llm : String) :
    (tasks.length ≠ 1 →
      ∃ e, NewPlanningWorkflow.create tasks llm = .error e) ∧
    (∀ t, tasks = [t] → (t.agents = none ∨ t.agents = some []) →
      ∃ e, NewPlanningWorkflow.create tasks llm = .error e) ∧
    (∀ t ags, tasks = [t] → t.agents = some ags → ags ≠ [] →
      NewPlanningWorkflow.create tasks llm =
        .ok { tasks := tasks, llm := llm }) := by
  refine ⟨?_, ?_, ?_⟩
  · intro hlen
    refine ⟨"Planning only supports one task", ?_⟩
    unfold NewPlanningWorkflow.create verify_tasks
    rw [dif_neg hlen]
  · intro t ht hag
    subst ht
    rcases hag with hnone | hempty
    · exact ⟨"Task must have at least one agent",
        by simp [NewPlanningWorkflow.create, verify_tasks, hnone]⟩
    · exact ⟨"Task must have at least one agent",
        by simp [NewPlanningWorkflow.create, verify_tasks, hempty]⟩
  · intro t ags ht hag hne
    subst ht
    have hlen1 : ¬ ags.length < 1 := by
      cases ags with
      | nil => exact absurd rfl hne
      | cons a l => simp
    simp [NewPlanningWorkflow.create, verify_tasks, hag, hlen1]

/-- Witness for C5: construction succeeds on one task with a two-agent
roster. -/
theorem c5_constructor_validation_witness :
    NewPlanningWorkflow.create [taskEx] "model-x" =
      .ok { tasks := [taskEx], llm := "model-x" } :=
  (c5_constructor_validation [taskEx] "model-x").2.2 taskEx rosterEx rfl rfl
    (by decide)

end AssetOps
